import Mathlib

/-
  Verification development for the pubg-leaderboard repository.

  The sources embedded here are the Redis cache store
  (package `store`, file modelled below as the `Store` namespace) and the HTTP
  server (`internal/api/server.go`, modelled as the `Api` namespace).
  The `internal/model` package, the `service` package and the backup/restore
  codec are not among the provided sources; they are modelled from the spec
  where a claim needs them, and each such definition is marked
  "Modelled from the spec".
-/

set_option linter.unusedVariables false

namespace PubgLeaderboard

/-- Modelled from the spec: a value of one of the "additional upstream-supplied
fields" of a record (the `internal/model` package is not among the provided
sources).  A field value is either ordinary textual data or a value the
serializer does not support (in Go, values such as NaN or channels make
`json.Marshal` fail); the latter is what makes serialization of a record
fallible, as the spec's error taxonomy requires (`EncodeError` when
"serialization of any record fails"). -/
inductive JVal where
  | jstr (s : String)
  | junsupported
deriving DecidableEq

/-- Modelled from the spec: the per-player projection of a snapshot entry,
"rank, games-played count, win count, and any additional upstream-supplied
fields". -/
structure PlayerAttribute where
  rank : Nat
  gamesPlayed : Nat
  wins : Nat
  extra : List (String × JVal)
deriving DecidableEq

/-- Modelled from the spec: one record of the snapshot's "Included" collection,
"a stable player identifier and an embedded PlayerAttribute".  Field names
follow the Go code's uses `player.ID` and `player.Attributes`. -/
structure PlayerEntry where
  ID : String
  Attributes : PlayerAttribute
deriving DecidableEq

/-- Modelled from the spec: the full leaderboard snapshot, a collection
`Included` of player entries (the Go store iterates `leaderboardData.Included`). -/
structure LeaderboardResponse where
  Included : List PlayerEntry
deriving DecidableEq

/-- Modelled from the spec: season metadata, "an opaque season identifier plus
any descriptive metadata". -/
structure SeasonData where
  ID : String
deriving DecidableEq

/-! ## Serialization codec

Modelled from the spec: §4.1 asks for "a deterministic, lossless text
serialization" for each record shape, with any mismatch surfacing as a decode
error, never a silent partial parse.  The concrete Go implementation
(`encoding/json` over the `internal/model` types) is not among the provided
sources, so the wire format is modelled as a token stream of naturals: a
string is length-prefixed and then spelled out as character codepoints,
records are concatenations of their fields, and lists are count-prefixed. -/

/-- Encode a string as its length followed by its characters' codepoints. -/
def encStr (s : String) : List Nat :=
  s.data.length :: s.data.map Char.toNat

/-- Decode a string from the token stream; returns the remaining tokens. -/
def decStr : List Nat → Option (String × List Nat)
  | [] => none
  | n :: rest =>
    if n ≤ rest.length then
      some (String.mk ((rest.take n).map Char.ofNat), rest.drop n)
    else none

/-- Encode a field value; fails on a value the serializer does not support. -/
def jencVal : JVal → Option (List Nat)
  | .jstr s => some (0 :: encStr s)
  | .junsupported => none

/-- Decode a field value from the token stream. -/
def jdecVal : List Nat → Option (JVal × List Nat)
  | 0 :: rest =>
    match decStr rest with
    | none => none
    | some (s, r) => some (.jstr s, r)
  | _ => none

/-- Encode a list of extra fields; fails if any value fails to encode. -/
def encExtras : List (String × JVal) → Option (List Nat)
  | [] => some []
  | (k, v) :: rest =>
    match jencVal v with
    | none => none
    | some ev =>
      match encExtras rest with
      | none => none
      | some er => some (encStr k ++ ev ++ er)

/-- Decode `n` extra fields from the token stream. -/
def decExtras : Nat → List Nat → Option (List (String × JVal) × List Nat)
  | 0, l => some ([], l)
  | n + 1, l =>
    match decStr l with
    | none => none
    | some (k, l1) =>
      match jdecVal l1 with
      | none => none
      | some (v, l2) =>
        match decExtras n l2 with
        | none => none
        | some (kvs, l3) => some ((k, v) :: kvs, l3)

/-- Serialize a PlayerAttribute (the store's `json.Marshal(player.Attributes)`);
fails exactly when some extra field's value fails to encode. -/
def marshalPA (a : PlayerAttribute) : Option (List Nat) :=
  match encExtras a.extra with
  | none => none
  | some ex => some (a.rank :: a.gamesPlayed :: a.wins :: a.extra.length :: ex)

/-- Decode a PlayerAttribute from the token stream. -/
def unmarshalPA : List Nat → Option (PlayerAttribute × List Nat)
  | r :: g :: w :: n :: rest =>
    match decExtras n rest with
    | none => none
    | some (ex, l1) =>
      some ({ rank := r, gamesPlayed := g, wins := w, extra := ex }, l1)
  | _ => none

/-- Serialize one player entry: identifier then attributes. -/
def marshalEntry (e : PlayerEntry) : Option (List Nat) :=
  match marshalPA e.Attributes with
  | none => none
  | some ea => some (encStr e.ID ++ ea)

/-- Decode one player entry from the token stream. -/
def unmarshalEntry (l : List Nat) : Option (PlayerEntry × List Nat) :=
  match decStr l with
  | none => none
  | some (i, l1) =>
    match unmarshalPA l1 with
    | none => none
    | some (a, l2) => some ({ ID := i, Attributes := a }, l2)

/-- Serialize a list of entries, concatenated. -/
def encEntries : List PlayerEntry → Option (List Nat)
  | [] => some []
  | e :: rest =>
    match marshalEntry e with
    | none => none
    | some ee =>
      match encEntries rest with
      | none => none
      | some er => some (ee ++ er)

/-- Decode `n` player entries from the token stream. -/
def decEntries : Nat → List Nat → Option (List PlayerEntry × List Nat)
  | 0, l => some ([], l)
  | n + 1, l =>
    match unmarshalEntry l with
    | none => none
    | some (e, l1) =>
      match decEntries n l1 with
      | none => none
      | some (es, l2) => some (e :: es, l2)

/-- Serialize a full LeaderboardResponse (the store's
`json.Marshal(leaderboardData)`): entry count followed by the entries. -/
def marshalLB (x : LeaderboardResponse) : Option (List Nat) :=
  match encEntries x.Included with
  | none => none
  | some es => some (x.Included.length :: es)

/-- Decode a LeaderboardResponse from the token stream. -/
def unmarshalLB : List Nat → Option (LeaderboardResponse × List Nat)
  | n :: rest =>
    match decEntries n rest with
    | none => none
    | some (es, l1) => some ({ Included := es }, l1)
  | [] => none

/-- Full-blob decode of a LeaderboardResponse: every token must be consumed
(`json.Unmarshal` rejects trailing garbage). -/
def decodeLB (l : List Nat) : Option LeaderboardResponse :=
  match unmarshalLB l with
  | some (x, []) => some x
  | _ => none

/-- Full-blob decode of a PlayerAttribute. -/
def decodePA (l : List Nat) : Option PlayerAttribute :=
  match unmarshalPA l with
  | some (a, []) => some a
  | _ => none

/-- Serialize SeasonData (the store's `json.Marshal(season)`). -/
def marshalSeason (s : SeasonData) : Option (List Nat) :=
  some (encStr s.ID)

/-- Full-blob decode of SeasonData. -/
def decodeSeason (l : List Nat) : Option SeasonData :=
  match decStr l with
  | some (i, []) => some { ID := i }
  | _ => none

/-! ## Codec round-trip lemmas -/

/-- Decoding an encoded string consumes exactly the encoding. -/
theorem decStr_encStr (s : String) (rest : List Nat) :
    decStr (encStr s ++ rest) = some (s, rest) := by
  have hlen : (s.data.map Char.toNat).length = s.data.length := by simp
  simp only [encStr, List.cons_append, decStr]
  rw [if_pos (by simp)]
  rw [List.take_append_of_le_length (by omega), List.take_of_length_le (by omega)]
  rw [List.drop_append_of_le_length (by omega), List.drop_of_length_le (by omega)]
  simp [List.map_map, Function.comp_def, Char.ofNat_toNat]

/-- Decoding an encoded field value consumes exactly the encoding. -/
theorem jdecVal_jencVal (v : JVal) (b : List Nat) (rest : List Nat)
    (h : jencVal v = some b) : jdecVal (b ++ rest) = some (v, rest) := by
  cases v with
  | jstr s =>
    simp only [jencVal, Option.some.injEq] at h
    subst h
    simp [jdecVal, decStr_encStr]
  | junsupported => simp [jencVal] at h

/-- Decoding an encoded extras list consumes exactly the encoding. -/
theorem decExtras_encExtras (l : List (String × JVal)) (b : List Nat)
    (rest : List Nat) (h : encExtras l = some b) :
    decExtras l.length (b ++ rest) = some (l, rest) := by
  induction l generalizing b rest with
  | nil =>
    simp only [encExtras, Option.some.injEq] at h
    subst h
    simp [decExtras]
  | cons kv tl ih =>
    obtain ⟨k, v⟩ := kv
    simp only [encExtras] at h
    cases hv : jencVal v with
    | none => rw [hv] at h; exact absurd h (by simp)
    | some ev =>
      rw [hv] at h
      cases ht : encExtras tl with
      | none => rw [ht] at h; exact absurd h (by simp)
      | some er =>
        rw [ht] at h
        simp only [Option.some.injEq] at h
        subst h
        simp only [List.length_cons, decExtras, List.append_assoc,
          decStr_encStr, jdecVal_jencVal v ev _ hv, ih er rest ht]

/-- Decoding an encoded PlayerAttribute consumes exactly the encoding. -/
theorem unmarshalPA_marshalPA (a : PlayerAttribute) (b : List Nat)
    (rest : List Nat) (h : marshalPA a = some b) :
    unmarshalPA (b ++ rest) = some (a, rest) := by
  simp only [marshalPA] at h
  cases hx : encExtras a.extra with
  | none => rw [hx] at h; exact absurd h (by simp)
  | some ex =>
    rw [hx] at h
    simp only [Option.some.injEq] at h
    subst h
    simp only [List.cons_append, unmarshalPA]
    rw [decExtras_encExtras a.extra ex rest hx]

/-- Decoding an encoded player entry consumes exactly the encoding. -/
theorem unmarshalEntry_marshalEntry (e : PlayerEntry) (b : List Nat)
    (rest : List Nat) (h : marshalEntry e = some b) :
    unmarshalEntry (b ++ rest) = some (e, rest) := by
  simp only [marshalEntry] at h
  cases ha : marshalPA e.Attributes with
  | none => rw [ha] at h; exact absurd h (by simp)
  | some ea =>
    rw [ha] at h
    simp only [Option.some.injEq] at h
    subst h
    simp only [unmarshalEntry, List.append_assoc, decStr_encStr,
      unmarshalPA_marshalPA e.Attributes ea rest ha]

/-- Decoding an encoded entry list consumes exactly the encoding. -/
theorem decEntries_encEntries (l : List PlayerEntry) (b : List Nat)
    (rest : List Nat) (h : encEntries l = some b) :
    decEntries l.length (b ++ rest) = some (l, rest) := by
  induction l generalizing b rest with
  | nil =>
    simp only [encEntries, Option.some.injEq] at h
    subst h
    simp [decEntries]
  | cons e tl ih =>
    simp only [encEntries] at h
    cases he : marshalEntry e with
    | none => rw [he] at h; exact absurd h (by simp)
    | some ee =>
      rw [he] at h
      cases ht : encEntries tl with
      | none => rw [ht] at h; exact absurd h (by simp)
      | some er =>
        rw [ht] at h
        simp only [Option.some.injEq] at h
        subst h
        simp only [List.length_cons, decEntries, List.append_assoc,
          unmarshalEntry_marshalEntry e ee _ he, ih er rest ht]

/-- Decoding an encoded LeaderboardResponse consumes exactly the encoding. -/
theorem unmarshalLB_marshalLB (x : LeaderboardResponse) (b : List Nat)
    (rest : List Nat) (h : marshalLB x = some b) :
    unmarshalLB (b ++ rest) = some (x, rest) := by
  simp only [marshalLB] at h
  cases he : encEntries x.Included with
  | none => rw [he] at h; exact absurd h (by simp)
  | some es =>
    rw [he] at h
    simp only [Option.some.injEq] at h
    subst h
    simp only [List.cons_append, unmarshalLB]
    rw [decEntries_encEntries x.Included es rest he]

/-- Full-blob round trip for LeaderboardResponse. -/
theorem decodeLB_marshalLB (x : LeaderboardResponse) (b : List Nat)
    (h : marshalLB x = some b) : decodeLB b = some x := by
  have := unmarshalLB_marshalLB x b [] h
  rw [List.append_nil] at this
  simp [decodeLB, this]

/-- Full-blob round trip for PlayerAttribute. -/
theorem decodePA_marshalPA (a : PlayerAttribute) (b : List Nat)
    (h : marshalPA a = some b) : decodePA b = some a := by
  have := unmarshalPA_marshalPA a b [] h
  rw [List.append_nil] at this
  simp [decodePA, this]

/-- Full-blob round trip for SeasonData. -/
theorem decodeSeason_marshalSeason (s : SeasonData) (b : List Nat)
    (h : marshalSeason s = some b) : decodeSeason b = some s := by
  simp only [marshalSeason, Option.some.injEq] at h
  subst h
  have := decStr_encStr s.ID []
  rw [List.append_nil] at this
  simp [decodeSeason, this]

/-! ## Redis backend model

The clustered key-value backend (an external collaborator, §6 of the spec):
string keys and hash keys, each with an optional absolute expiry instant.
Time is a natural number of seconds; a key set at time `t` with time-to-live
`ttl` is live strictly before `t + ttl` and absent from then on. -/

/-- A stored Redis value: a plain string value or a hash (field map). -/
inductive RVal where
  | str (v : List Nat)
  | hash (fields : List (String × List Nat))
deriving DecidableEq

/-- One keyed entry of the backend: value plus optional absolute expiry. -/
structure RedisEntry where
  key : String
  val : RVal
  expiry : Option Nat
deriving DecidableEq

/-- The whole backend state. -/
structure RedisState where
  entries : List RedisEntry
deriving DecidableEq

/-- The empty backend. -/
def emptyState : RedisState := { entries := [] }

/-- Find the entry stored under a key, expired or not. -/
def findEntry : List RedisEntry → String → Option RedisEntry
  | [], _ => none
  | e :: rest, k => if e.key = k then some e else findEntry rest k

/-- Whether an optional expiry is still live at time `t` (no expiry = persistent). -/
def expiryLive (t : Nat) : Option Nat → Bool
  | none => true
  | some e => t < e

/-- The value and expiry visible under key `k` at time `t`, if any. -/
def liveLookup (st : RedisState) (t : Nat) (k : String) : Option (RVal × Option Nat) :=
  match findEntry st.entries k with
  | none => none
  | some e => if expiryLive t e.expiry then some (e.val, e.expiry) else none

/-- Remove any entry stored under key `k`. -/
def removeKey (l : List RedisEntry) (k : String) : List RedisEntry :=
  l.filter (fun e => e.key ≠ k)

/-- Store `v` under key `k` with expiry `exp`, replacing any previous entry. -/
def setEntry (st : RedisState) (k : String) (v : RVal) (exp : Option Nat) : RedisState :=
  { entries := { key := k, val := v, expiry := exp } :: removeKey st.entries k }

/-- Look a field up in a hash's field map. -/
def lookupField : List (String × List Nat) → String → Option (List Nat)
  | [], _ => none
  | (f, v) :: rest, g => if f = g then some v else lookupField rest g

/-- Set a field in a hash's field map, replacing any previous binding. -/
def upsertField (l : List (String × List Nat)) (f : String) (v : List Nat) :
    List (String × List Nat) :=
  (f, v) :: l.filter (fun p => p.1 ≠ f)

/-- The Redis commands the store issues (GET, HGET, SET with expiry, HSET,
EXPIRE, PING). -/
inductive RCmd where
  | get (key : String)
  | hget (key : String) (field : String)
  | set (key : String) (val : List Nat) (ttl : Nat)
  | hset (key : String) (field : String) (val : List Nat)
  | expire (key : String) (ttl : Nat)
  | ping
deriving DecidableEq

/-- A Redis reply: nil (absent), a bulk value, a plain acknowledgement, or a
command error (such as WRONGTYPE against a key of the other kind). -/
inductive RReply where
  | nil
  | bulk (v : List Nat)
  | okr
  | err
deriving DecidableEq

/-- Single-command semantics of the backend at time `t`.  SET stores a string
value with absolute expiry `t + ttl`; HSET updates a field, creating a
persistent hash when the key is absent and keeping the key's expiry when it is
live; EXPIRE re-times a live key and is a no-op on an absent one; reads leave
the state untouched. -/
def applyCmd (t : Nat) (st : RedisState) : RCmd → RReply × RedisState
  | .ping => (.okr, st)
  | .get k =>
    match liveLookup st t k with
    | none => (.nil, st)
    | some (.str v, _) => (.bulk v, st)
    | some (.hash _, _) => (.err, st)
  | .hget k f =>
    match liveLookup st t k with
    | none => (.nil, st)
    | some (.str _, _) => (.err, st)
    | some (.hash h, _) =>
      match lookupField h f with
      | none => (.nil, st)
      | some v => (.bulk v, st)
  | .set k v ttl => (.okr, setEntry st k (.str v) (some (t + ttl)))
  | .hset k f v =>
    match liveLookup st t k with
    | none => (.okr, setEntry st k (.hash (upsertField [] f v)) none)
    | some (.str _, _) => (.err, st)
    | some (.hash h, e) => (.okr, setEntry st k (.hash (upsertField h f v)) e)
  | .expire k ttl =>
    match liveLookup st t k with
    | none => (.okr, st)
    | some (v, _) => (.okr, setEntry st k v (some (t + ttl)))

/-- Run a command list in order (the body of an executed MULTI/EXEC
transaction); the flag records whether any command replied with an error
(inside MULTI/EXEC a failed command does not roll the others back). -/
def runCmds (t : Nat) (st : RedisState) : List RCmd → Bool × RedisState
  | [] => (false, st)
  | c :: cs =>
    let (r, st1) := applyCmd t st c
    let (e, st2) := runCmds t st1 cs
    ((match r with | .err => true | _ => false) || e, st2)

/-- The caller-supplied context: carries only the cancellation signal. -/
structure Ctx where
  canceled : Bool
deriving DecidableEq

/-- The context the Go handlers create with `context.Background()`: never
canceled. -/
def backgroundCtx : Ctx := { canceled := false }

/-- The store's error taxonomy (§7 of the spec; `ErrCacheMiss` is the code's
sentinel, the others model the wrapped error values it returns). -/
inductive StoreErr where
  | cacheMiss
  | decodeError
  | encodeError
  | backendError
  | canceled
deriving DecidableEq

/-- Send one command to the backend: a canceled context fails without reaching
the backend, otherwise the command is applied. -/
def sendCmd (ctx : Ctx) (st : RedisState) (t : Nat) (c : RCmd) :
    Except StoreErr RReply × RedisState :=
  if ctx.canceled then (.error .canceled, st)
  else
    let (r, st1) := applyCmd t st c
    (.ok r, st1)

/-- Execute a queued transaction (`TxPipeline.Exec`): a canceled context fails
with nothing applied; otherwise all queued commands are applied together and
an error reply from any of them surfaces as the transaction's error. -/
def execTransaction (ctx : Ctx) (st : RedisState) (t : Nat) (cmds : List RCmd) :
    Except StoreErr Unit × RedisState :=
  if ctx.canceled then (.error .canceled, st)
  else
    let (e, st1) := runCmds t st cmds
    ((if e then .error .backendError else .ok ()), st1)

/-- The per-player key the store writes for a player identifier
(`"player_stats:" + player.ID` in the source). -/
def playerKey (pid : String) : String := "player_stats:" ++ pid

namespace Store

/-- `RedisClient.Ping` from the source: a liveness check against the backend. -/
def Ping (ctx : Ctx) (st : RedisState) (t : Nat) : Except StoreErr Unit × RedisState :=
  match sendCmd ctx st t .ping with
  | (.error e, st1) => (.error e, st1)
  | (.ok _, st1) => (.ok (), st1)

/-- `RedisClient.GetLeaderboard` from the source: GET key `leaderboard`;
`redis.Nil` becomes `ErrCacheMiss`, other command errors propagate, and bytes
that fail to unmarshal produce a decode error. -/
def GetLeaderboard (ctx : Ctx) (st : RedisState) (t : Nat) :
    Except StoreErr LeaderboardResponse × RedisState :=
  match sendCmd ctx st t (.get "leaderboard") with
  | (.error e, st1) => (.error e, st1)
  | (.ok .nil, st1) => (.error .cacheMiss, st1)
  | (.ok (.bulk data), st1) =>
    match decodeLB data with
    | none => (.error .decodeError, st1)
    | some leaderboard => (.ok leaderboard, st1)
  | (.ok _, st1) => (.error .backendError, st1)

/-- The per-player commands `RedisClient.UpdateLeaderboard` queues: for each
player, HSET of field `stats` of key `player_stats:<ID>` and a 10-minute
EXPIRE on that key; fails (before anything is executed) if a player's stats
fail to marshal. -/
def buildPlayerCmds : List PlayerEntry → Option (List RCmd)
  | [] => some []
  | player :: rest =>
    match marshalPA player.Attributes with
    | none => none
    | some playerStatsJSON =>
      match buildPlayerCmds rest with
      | none => none
      | some cs =>
        some (.hset (playerKey player.ID) "stats" playerStatsJSON
          :: .expire (playerKey player.ID) (10 * 60) :: cs)

/-- `RedisClient.UpdateLeaderboard` from the source: marshal the whole
snapshot (encode error aborts before the transaction), queue SET of key
`leaderboard` with a 10-minute expiry plus the per-player commands in one
transaction, and execute it. -/
def UpdateLeaderboard (ctx : Ctx) (st : RedisState) (t : Nat)
    (leaderboardData : LeaderboardResponse) : Except StoreErr Unit × RedisState :=
  match marshalLB leaderboardData with
  | none => (.error .encodeError, st)
  | some leaderboardJSON =>
    match buildPlayerCmds leaderboardData.Included with
    | none => (.error .encodeError, st)
    | some playerCmds =>
      execTransaction ctx st t
        (.set "leaderboard" leaderboardJSON (10 * 60) :: playerCmds)

/-- `RedisClient.GetPlayerStats` from the source: HGET field `stats` of key
`player_stats:<playerID>` with the same error mapping as `GetLeaderboard`. -/
def GetPlayerStats (ctx : Ctx) (st : RedisState) (t : Nat) (playerID : String) :
    Except StoreErr PlayerAttribute × RedisState :=
  match sendCmd ctx st t (.hget (playerKey playerID) "stats") with
  | (.error e, st1) => (.error e, st1)
  | (.ok .nil, st1) => (.error .cacheMiss, st1)
  | (.ok (.bulk data), st1) =>
    match decodePA data with
    | none => (.error .decodeError, st1)
    | some playerStats => (.ok playerStats, st1)
  | (.ok _, st1) => (.error .backendError, st1)

/-- `RedisClient.GetSeason` from the source: GET key `current_season` with the
same error mapping as `GetLeaderboard`. -/
def GetSeason (ctx : Ctx) (st : RedisState) (t : Nat) :
    Except StoreErr SeasonData × RedisState :=
  match sendCmd ctx st t (.get "current_season") with
  | (.error e, st1) => (.error e, st1)
  | (.ok .nil, st1) => (.error .cacheMiss, st1)
  | (.ok (.bulk data), st1) =>
    match decodeSeason data with
    | none => (.error .decodeError, st1)
    | some season => (.ok season, st1)
  | (.ok _, st1) => (.error .backendError, st1)

/-- `RedisClient.UpdateSeason` from the source: marshal the season and SET key
`current_season` with a 24-hour expiry. -/
def UpdateSeason (ctx : Ctx) (st : RedisState) (t : Nat) (season : SeasonData) :
    Except StoreErr Unit × RedisState :=
  match marshalSeason season with
  | none => (.error .encodeError, st)
  | some data =>
    match sendCmd ctx st t (.set "current_season" data (24 * 60 * 60)) with
    | (.error e, st1) => (.error e, st1)
    | (.ok _, st1) => (.ok (), st1)

end Store

/-! ## Blob storage, backup/restore codec and service layer

The `service` package and the backup/restore codec are not among the provided
sources; everything in this section is modelled from the spec (§4.3, §4.4). -/

/-- One named object in durable blob storage, keyed by (container, name). -/
structure BlobObject where
  container : String
  name : String
  blob : List Nat
deriving DecidableEq

/-- The durable blob store (an external collaborator, §6 of the spec). -/
structure BlobStore where
  objects : List BlobObject
deriving DecidableEq

/-- Store a blob under (container, name), replacing any previous object. -/
def blobPut (bs : BlobStore) (container name : String) (blob : List Nat) : BlobStore :=
  { objects := { container := container, name := name, blob := blob }
      :: bs.objects.filter (fun o => decide (¬(o.container = container ∧ o.name = name))) }

/-- Fetch the blob stored under (container, name), if any. -/
def findBlob : List BlobObject → String → String → Option (List Nat)
  | [], _, _ => none
  | o :: rest, c, n =>
    if o.container = c ∧ o.name = n then some o.blob else findBlob rest c n

/-- The service-level error taxonomy (§7 of the spec), wrapping store errors. -/
inductive ServiceErr where
  | store (e : StoreErr)
  | nothingToBackup
  | upstreamUnavailable
  | storageReadError
  | storageWriteError
  | encodeError
  | decodeError
deriving DecidableEq

/-- Modelled from the spec: `Backup(snapshot, destinationName)` of the codec
(§4.3, not among the provided sources) "encodes the snapshot to a
self-contained byte blob and uploads it under `destinationName` to blob
storage; fails with `EncodeError`" when encoding fails. -/
def Backup (bs : BlobStore) (x : LeaderboardResponse) (container name : String) :
    Except ServiceErr Unit × BlobStore :=
  match marshalLB x with
  | none => (.error .encodeError, bs)
  | some blob => (.ok (), blobPut bs container name blob)

/-- Modelled from the spec: `Restore(sourceName)` of the codec (§4.3, not
among the provided sources) "downloads the named blob, decodes it back into a
LeaderboardResponse; fails with `StorageReadError` (blob missing) or
`DecodeError` (corrupt/foreign format)". -/
def Restore (bs : BlobStore) (container name : String) :
    Except ServiceErr LeaderboardResponse :=
  match findBlob bs.objects container name with
  | none => .error .storageReadError
  | some blob =>
    match decodeLB blob with
    | none => .error .decodeError
    | some x => .ok x

/-- The upstream stats provider (an external collaborator, §6 of the spec);
its two fetches are modelled by the responses they would return. -/
structure Upstream where
  season : Except Unit SeasonData
  leaderboard : Except Unit LeaderboardResponse

namespace Service

/-- Modelled from the spec: `GetCurrentSeason()` of the service (§4.4, not
among the provided sources) — "try cache; on `CacheMiss`, fetch fresh season
data from the upstream provider, store via `UpdateSeason`, return it.  Any
upstream failure propagates as `UpstreamUnavailable`." -/
def GetCurrentSeason (ctx : Ctx) (st : RedisState) (t : Nat) (up : Upstream) :
    Except ServiceErr SeasonData × RedisState :=
  match Store.GetSeason ctx st t with
  | (.ok s, st1) => (.ok s, st1)
  | (.error .cacheMiss, st1) =>
    match up.season with
    | .error _ => (.error .upstreamUnavailable, st1)
    | .ok seasonData =>
      match Store.UpdateSeason ctx st1 t seasonData with
      | (.error e, st2) => (.error (.store e), st2)
      | (.ok _, st2) => (.ok seasonData, st2)
  | (.error e, st1) => (.error (.store e), st1)

/-- Modelled from the spec: `GetCurrentLeaderboard()` of the service (§4.4,
not among the provided sources) — "same pattern against
`GetLeaderboard`/`UpdateLeaderboard`". -/
def GetCurrentLeaderboard (ctx : Ctx) (st : RedisState) (t : Nat) (up : Upstream) :
    Except ServiceErr LeaderboardResponse × RedisState :=
  match Store.GetLeaderboard ctx st t with
  | (.ok lb, st1) => (.ok lb, st1)
  | (.error .cacheMiss, st1) =>
    match up.leaderboard with
    | .error _ => (.error .upstreamUnavailable, st1)
    | .ok lb =>
      match Store.UpdateLeaderboard ctx st1 t lb with
      | (.error e, st2) => (.error (.store e), st2)
      | (.ok _, st2) => (.ok lb, st2)
  | (.error e, st1) => (.error (.store e), st1)

/-- Modelled from the spec: `GetPlayerStats(playerID)` of the service (§4.4,
not among the provided sources) — "try per-player cache first; on miss, fall
back to fetching (or recomputing from) the full leaderboard and re-deriving
the player's entry; `CacheMiss` is surfaced to the caller only if the player
truly does not exist in the latest known leaderboard." -/
def GetPlayerStats (ctx : Ctx) (st : RedisState) (t : Nat) (up : Upstream)
    (playerID : String) : Except ServiceErr PlayerAttribute × RedisState :=
  match Store.GetPlayerStats ctx st t playerID with
  | (.ok a, st1) => (.ok a, st1)
  | (.error .cacheMiss, st1) =>
    match GetCurrentLeaderboard ctx st1 t up with
    | (.ok lb, st2) =>
      match lb.Included.find? (fun p => p.ID == playerID) with
      | some p => (.ok p.Attributes, st2)
      | none => (.error (.store .cacheMiss), st2)
    | (.error e, st2) => (.error e, st2)
  | (.error e, st1) => (.error (.store e), st1)

/-- Modelled from the spec: `BackupLeaderboardData(destination, name)` of the
service (§4.4, not among the provided sources) — "read current cached snapshot
(fails with `NothingToBackup` if no snapshot is cached — do not silently back
up an empty object), delegate to the Codec/storage path." -/
def BackupLeaderboardData (ctx : Ctx) (st : RedisState) (bs : BlobStore) (t : Nat)
    (container name : String) : Except ServiceErr Unit × RedisState × BlobStore :=
  match Store.GetLeaderboard ctx st t with
  | (.error .cacheMiss, st1) => (.error .nothingToBackup, st1, bs)
  | (.error e, st1) => (.error (.store e), st1, bs)
  | (.ok snapshot, st1) =>
    match Backup bs snapshot container name with
    | (.error e, bs1) => (.error e, st1, bs1)
    | (.ok _, bs1) => (.ok (), st1, bs1)

/-- Modelled from the spec: `RestoreLeaderboardData(source, name)` of the
service (§4.4, not among the provided sources) — "delegate to Codec/storage
path, then write the result through `UpdateLeaderboard` so the cache reflects
the restored state immediately." -/
def RestoreLeaderboardData (ctx : Ctx) (st : RedisState) (bs : BlobStore) (t : Nat)
    (container name : String) : Except ServiceErr Unit × RedisState :=
  match Restore bs container name with
  | .error e => (.error e, st)
  | .ok x =>
    match Store.UpdateLeaderboard ctx st t x with
    | (.error e, st1) => (.error (.store e), st1)
    | (.ok _, st1) => (.ok (), st1)

end Service

/-! ## HTTP boundary (`internal/api/server.go`, in the provided sources) -/

/-- The collaborators and clock a request executes against. -/
structure Env where
  redis : RedisState
  blobs : BlobStore
  up : Upstream
  time : Nat

namespace Api

/-- `handlePing` from the source: always HTTP 200. -/
def handlePing (reqCtx : Ctx) (env : Env) : Nat × Env := (200, env)

/-- `handleRedisPing` from the source: pings Redis with the request's context
(`c.Request.Context()`); HTTP 500 on failure. -/
def handleRedisPing (reqCtx : Ctx) (env : Env) : Nat × Env :=
  match Store.Ping reqCtx env.redis env.time with
  | (.error _, st1) => (500, { env with redis := st1 })
  | (.ok _, st1) => (200, { env with redis := st1 })

/-- `handleGetCurrentSeason` from the source: calls the service with a fresh
`context.Background()` (not the request's context); HTTP 500 on any failure. -/
def handleGetCurrentSeason (reqCtx : Ctx) (env : Env) : Nat × Env :=
  match Service.GetCurrentSeason backgroundCtx env.redis env.time env.up with
  | (.error _, st1) => (500, { env with redis := st1 })
  | (.ok _, st1) => (200, { env with redis := st1 })

/-- `handleGetCurrentLeaderboard` from the source: calls the service with a
fresh `context.Background()`; HTTP 500 on any failure. -/
def handleGetCurrentLeaderboard (reqCtx : Ctx) (env : Env) : Nat × Env :=
  match Service.GetCurrentLeaderboard backgroundCtx env.redis env.time env.up with
  | (.error _, st1) => (500, { env with redis := st1 })
  | (.ok _, st1) => (200, { env with redis := st1 })

/-- `handleGetPlayerStats` from the source: calls the service with a fresh
`context.Background()`; HTTP 404 when the error is the store's `ErrCacheMiss`
sentinel, HTTP 500 on any other failure. -/
def handleGetPlayerStats (reqCtx : Ctx) (playerID : String) (env : Env) : Nat × Env :=
  match Service.GetPlayerStats backgroundCtx env.redis env.time env.up playerID with
  | (.error (.store .cacheMiss), st1) => (404, { env with redis := st1 })
  | (.error _, st1) => (500, { env with redis := st1 })
  | (.ok _, st1) => (200, { env with redis := st1 })

/-- `handleBackupLeaderboard` from the source: bucket `pubg-leaderboard`, a
timestamped file name, the request's context; HTTP 500 on failure. -/
def handleBackupLeaderboard (reqCtx : Ctx) (env : Env) : Nat × Env :=
  match Service.BackupLeaderboardData reqCtx env.redis env.blobs env.time
      "pubg-leaderboard" ("leaderboard_backup_" ++ toString env.time) with
  | (.error _, st1, bs1) => (500, { env with redis := st1, blobs := bs1 })
  | (.ok _, st1, bs1) => (200, { env with redis := st1, blobs := bs1 })

/-- `handleRestoreLeaderboard` from the source: HTTP 400 when the `file` query
parameter is empty, otherwise restores with the request's context; HTTP 500 on
failure. -/
def handleRestoreLeaderboard (reqCtx : Ctx) (file : String) (env : Env) : Nat × Env :=
  if file = "" then (400, env)
  else
    match Service.RestoreLeaderboardData reqCtx env.redis env.blobs env.time
        "pubg-leaderboard" file with
    | (.error _, st1) => (500, { env with redis := st1 })
    | (.ok _, st1) => (200, { env with redis := st1 })

/-- One inbound request to any of the routes `setupRoutes` registers. -/
inductive ApiCall where
  | ping
  | redisPing
  | currentSeason
  | currentLeaderboard
  | playerStats (playerID : String)
  | backupLeaderboard
  | restoreLeaderboard (file : String)
deriving DecidableEq

/-- Dispatch a request to its handler, as the router does. -/
def handle (call : ApiCall) (reqCtx : Ctx) (env : Env) : Nat × Env :=
  match call with
  | .ping => handlePing reqCtx env
  | .redisPing => handleRedisPing reqCtx env
  | .currentSeason => handleGetCurrentSeason reqCtx env
  | .currentLeaderboard => handleGetCurrentLeaderboard reqCtx env
  | .playerStats playerID => handleGetPlayerStats reqCtx playerID env
  | .backupLeaderboard => handleBackupLeaderboard reqCtx env
  | .restoreLeaderboard file => handleRestoreLeaderboard reqCtx file env

end Api

/-! ## State lemmas for the backend model -/

/-- Whether key `k` can take an HSET at time `t` without a WRONGTYPE reply. -/
def hashOk (st : RedisState) (t : Nat) (k : String) : Bool :=
  match liveLookup st t k with
  | some (.str _, _) => false
  | _ => true

/-- The live hash fields under key `k` at time `t` (empty if absent or not a hash). -/
def liveFields (st : RedisState) (t : Nat) (k : String) : List (String × List Nat) :=
  match liveLookup st t k with
  | some (.hash h, _) => h
  | _ => []

/-- The stats bytes `HGET player_stats:<pid> stats` would see at time `t`. -/
def statsBytes (st : RedisState) (t : Nat) (pid : String) : Option (List Nat) :=
  match liveLookup st t (playerKey pid) with
  | some (.hash h, _) => lookupField h "stats"
  | _ => none

/-- The stored expiry of key `k` (outer `none` when no entry is stored at all). -/
def keyExpiry (st : RedisState) (k : String) : Option (Option Nat) :=
  (findEntry st.entries k).map (fun e => e.expiry)

/-- Appending to a fixed string on the left is injective. -/
theorem string_append_left_cancel {s a b : String} (h : s ++ a = s ++ b) : a = b := by
  have hd : s.data ++ a.data = s.data ++ b.data := by
    rw [← String.data_append, ← String.data_append, h]
  have h2 := List.append_cancel_left hd
  cases a; cases b; simp_all

/-- Distinct player identifiers give distinct per-player keys. -/
theorem playerKey_inj {a b : String} (h : playerKey a = playerKey b) : a = b :=
  string_append_left_cancel h

/-- No per-player key collides with the snapshot key. -/
theorem playerKey_ne_leaderboard (pid : String) : playerKey pid ≠ "leaderboard" := by
  intro h
  have hd : (playerKey pid).data = "leaderboard".data := by rw [h]
  have hlen : (playerKey pid).data.length = ("player_stats:" ++ pid).data.length := rfl
  rw [String.data_append] at hlen
  have : ("leaderboard".data).length = 11 := by decide
  have h13 : ("player_stats:".data).length = 13 := by decide
  rw [hd] at hlen
  simp [this, h13] at hlen

/-- `findEntry` after removing a key. -/
theorem findEntry_removeKey (l : List RedisEntry) (k k' : String) :
    findEntry (removeKey l k) k' = if k' = k then none else findEntry l k' := by
  induction l with
  | nil => simp [removeKey, findEntry]
  | cons e rest ih =>
    by_cases hek : e.key = k
    · have : removeKey (e :: rest) k = removeKey rest k := by
        simp [removeKey, List.filter, hek]
      rw [this, ih]
      by_cases hk : k' = k
      · simp [hk]
      · have : e.key ≠ k' := by intro h; exact hk (h ▸ hek ▸ rfl)
        simp [hk, findEntry, this]
    · have : removeKey (e :: rest) k = e :: removeKey rest k := by
        simp [removeKey, List.filter, hek]
      rw [this]
      by_cases hek' : e.key = k'
      · have hk : ¬ k' = k := by intro h; exact hek (hek' ▸ h ▸ rfl)
        simp [findEntry, hek', hk]
      · simp [findEntry, hek', ih]

/-- `findEntry` after `setEntry`. -/
theorem findEntry_setEntry (st : RedisState) (k : String) (v : RVal) (exp : Option Nat)
    (k' : String) :
    findEntry (setEntry st k v exp).entries k' =
      if k' = k then some { key := k, val := v, expiry := exp }
      else findEntry st.entries k' := by
  by_cases hk : k' = k
  · simp [setEntry, findEntry, hk]
  · have hne : ¬ (k = k') := fun h => hk h.symm
    simp [setEntry, findEntry, hne, findEntry_removeKey, hk]

/-- `liveLookup` after `setEntry`. -/
theorem liveLookup_setEntry (st : RedisState) (t : Nat) (k : String) (v : RVal)
    (exp : Option Nat) (k' : String) :
    liveLookup (setEntry st k v exp) t k' =
      if k' = k then (if expiryLive t exp then some (v, exp) else none)
      else liveLookup st t k' := by
  by_cases hk : k' = k <;> simp [liveLookup, findEntry_setEntry, hk]

/-- The new binding is the one `lookupField` finds after `upsertField`. -/
theorem lookupField_upsertField (l : List (String × List Nat)) (f : String)
    (v : List Nat) : lookupField (upsertField l f v) f = some v := by
  simp [upsertField, lookupField]

/-- Removing a key twice is the same as removing it once. -/
theorem removeKey_removeKey (l : List RedisEntry) (k : String) :
    removeKey (removeKey l k) k = removeKey l k := by
  simp [removeKey, List.filter_filter]

/-- Overwriting a key twice keeps only the second write. -/
theorem setEntry_setEntry (st : RedisState) (k : String) (v1 v2 : RVal)
    (e1 e2 : Option Nat) :
    setEntry (setEntry st k v1 e1) k v2 e2 = setEntry st k v2 e2 := by
  have h1 : removeKey ({ key := k, val := v1, expiry := e1 } :: removeKey st.entries k) k
      = removeKey (removeKey st.entries k) k := by
    simp [removeKey, List.filter]
  simp [setEntry, h1, removeKey_removeKey]

/-- A value `liveLookup` returns carries a live expiry. -/
theorem liveLookup_live {st : RedisState} {t : Nat} {k : String} {v : RVal}
    {e : Option Nat} (h : liveLookup st t k = some (v, e)) :
    expiryLive t e = true := by
  unfold liveLookup at h
  cases hf : findEntry st.entries k with
  | none => rw [hf] at h; exact absurd h (by simp)
  | some ent =>
    rw [hf] at h
    dsimp only at h
    by_cases hl : expiryLive t ent.expiry = true
    · rw [if_pos hl] at h
      simp only [Option.some.injEq, Prod.mk.injEq] at h
      exact h.2 ▸ hl
    · rw [if_neg hl] at h; exact absurd h (by simp)

/-- `hashOk` is unaffected by a write under a different key. -/
theorem hashOk_setEntry_ne (st : RedisState) (t : Nat) (k k' : String) (v : RVal)
    (exp : Option Nat) (h : k' ≠ k) :
    hashOk (setEntry st k v exp) t k' = hashOk st t k' := by
  simp [hashOk, liveLookup_setEntry, h]

/-- Combined effect of the HSET/EXPIRE pair the store queues per player: when
the key is not of string type, both commands succeed and leave the key holding
the updated hash with absolute expiry `t + ttl`. -/
theorem runCmds_hset_expire (t : Nat) (st : RedisState) (k f : String) (v : List Nat)
    (ttl : Nat) (cs : List RCmd) (hok : hashOk st t k = true) :
    runCmds t st (.hset k f v :: .expire k ttl :: cs) =
      runCmds t (setEntry st k (.hash (upsertField (liveFields st t k) f v))
        (some (t + ttl))) cs := by
  cases hl : liveLookup st t k with
  | none =>
    simp only [runCmds, applyCmd, hl]
    rw [liveLookup_setEntry]
    simp only [if_pos rfl, expiryLive, if_pos rfl]
    simp [setEntry_setEntry, liveFields, hl]
  | some ve =>
    obtain ⟨val, e⟩ := ve
    cases val with
    | str s => simp [hashOk, hl] at hok
    | hash h =>
      have hlive : expiryLive t e = true := liveLookup_live hl
      simp only [runCmds, applyCmd, hl]
      rw [liveLookup_setEntry]
      simp only [if_pos rfl, hlive, if_pos rfl]
      simp [setEntry_setEntry, liveFields, hl]

/-- Effect of the per-player command block on the backend: no command errors,
every player of the snapshot ends with its stats bytes stored under its
per-player key with absolute expiry `t + 600`, and every other key is left
untouched. -/
theorem runCmds_playerCmds (t : Nat) (ps : List PlayerEntry)
    (hnd : (ps.map (fun p => p.ID)).Nodup) :
    ∀ (st : RedisState) (cmds : List RCmd),
      Store.buildPlayerCmds ps = some cmds →
      (∀ p ∈ ps, hashOk st t (playerKey p.ID) = true) →
      (runCmds t st cmds).1 = false
      ∧ (∀ p ∈ ps,
          statsBytes (runCmds t st cmds).2 t p.ID = marshalPA p.Attributes
          ∧ keyExpiry (runCmds t st cmds).2 (playerKey p.ID) = some (some (t + 10 * 60)))
      ∧ (∀ k, (∀ p ∈ ps, k ≠ playerKey p.ID) →
          findEntry (runCmds t st cmds).2.entries k = findEntry st.entries k) := by
  induction ps with
  | nil =>
    intro st cmds hb hok
    simp only [Store.buildPlayerCmds, Option.some.injEq] at hb
    subst hb
    simp [runCmds]
  | cons p rest ih =>
    intro st cmds hb hok
    rw [List.map_cons, List.nodup_cons] at hnd
    obtain ⟨hpid, hndrest⟩ := hnd
    simp only [Store.buildPlayerCmds] at hb
    cases hm : marshalPA p.Attributes with
    | none => rw [hm] at hb; exact absurd hb (by simp)
    | some v =>
      rw [hm] at hb
      cases hrest : Store.buildPlayerCmds rest with
      | none => rw [hrest] at hb; exact absurd hb (by simp)
      | some cs =>
        rw [hrest] at hb
        simp only [Option.some.injEq] at hb
        subst hb
        have hokp : hashOk st t (playerKey p.ID) = true := hok p (by simp)
        rw [runCmds_hset_expire t st (playerKey p.ID) "stats" v (10 * 60) cs hokp]
        set st' := setEntry st (playerKey p.ID)
          (.hash (upsertField (liveFields st t (playerKey p.ID)) "stats" v))
          (some (t + 10 * 60)) with hst'
        have hkeyne : ∀ q ∈ rest, playerKey q.ID ≠ playerKey p.ID := by
          intro q hq h
          exact hpid (playerKey_inj h ▸ List.mem_map_of_mem (fun r => r.ID) hq)
        have hok' : ∀ q ∈ rest, hashOk st' t (playerKey q.ID) = true := by
          intro q hq
          rw [hst', hashOk_setEntry_ne st t (playerKey p.ID) (playerKey q.ID) _ _
            (hkeyne q hq)]
          exact hok q (by simp [hq])
        obtain ⟨hflag, hplayers, hframe⟩ := ih hndrest st' cs hrest hok'
        refine ⟨hflag, ?_, ?_⟩
        · intro q hq
          rcases List.mem_cons.mp hq with hq1 | hq2
          · subst hq1
            have hfind : findEntry (runCmds t st' cs).2.entries (playerKey q.ID)
                = findEntry st'.entries (playerKey q.ID) := by
              apply hframe
              intro r hr h
              exact hkeyne r hr (h.symm)
            have hfind' : findEntry st'.entries (playerKey q.ID)
                = some { key := playerKey q.ID,
                         val := .hash (upsertField (liveFields st t (playerKey q.ID)) "stats" v),
                         expiry := some (t + 10 * 60) } := by
              rw [hst', findEntry_setEntry]
              simp
            constructor
            · rw [statsBytes, liveLookup, hfind, hfind']
              simp [expiryLive, lookupField_upsertField, hm]
            · rw [keyExpiry, hfind, hfind']
              rfl
          · exact hplayers q hq2
        · intro k hk
          rw [hframe k (fun q hq => hk q (by simp [hq]))]
          rw [hst', findEntry_setEntry]
          rw [if_neg (hk p (by simp))]

/-- If a list of entries encodes, every entry's attributes marshal. -/
theorem encEntries_marshalPA {ps : List PlayerEntry} {b : List Nat}
    (h : encEntries ps = some b) :
    ∀ p ∈ ps, ∃ v, marshalPA p.Attributes = some v := by
  induction ps generalizing b with
  | nil => intro p hp; exact absurd hp (by simp)
  | cons e rest ih =>
    intro p hp
    simp only [encEntries] at h
    cases he : marshalEntry e with
    | none => rw [he] at h; exact absurd h (by simp)
    | some ee =>
      rw [he] at h
      cases hr : encEntries rest with
      | none => rw [hr] at h; exact absurd h (by simp)
      | some er =>
        rcases List.mem_cons.mp hp with h1 | h2
        · subst h1
          simp only [marshalEntry] at he
          cases hpa : marshalPA p.Attributes with
          | none => rw [hpa] at he; exact absurd he (by simp)
          | some v => exact ⟨v, rfl⟩
        · exact ih hr p h2

/-- If a list of entries encodes, the store's per-player command block builds. -/
theorem buildPlayerCmds_of_encEntries {ps : List PlayerEntry} {b : List Nat}
    (h : encEntries ps = some b) :
    ∃ cs, Store.buildPlayerCmds ps = some cs := by
  induction ps generalizing b with
  | nil => exact ⟨[], rfl⟩
  | cons e rest ih =>
    simp only [encEntries] at h
    cases he : marshalEntry e with
    | none => rw [he] at h; exact absurd h (by simp)
    | some ee =>
      rw [he] at h
      cases hr : encEntries rest with
      | none => rw [hr] at h; exact absurd h (by simp)
      | some er =>
        obtain ⟨cs, hcs⟩ := ih hr
        simp only [marshalEntry] at he
        cases hpa : marshalPA e.Attributes with
        | none => rw [hpa] at he; exact absurd he (by simp)
        | some v =>
          exact ⟨.hset (playerKey e.ID) "stats" v :: .expire (playerKey e.ID) (10 * 60) :: cs,
            by simp [Store.buildPlayerCmds, hpa, hcs]⟩

/-- The snapshot fails to marshal exactly when some player's record fails to
marshal ("serialization of any record fails"). -/
theorem marshalLB_none_iff (s : LeaderboardResponse) :
    marshalLB s = none ↔ ∃ p ∈ s.Included, marshalPA p.Attributes = none := by
  have key : ∀ ps : List PlayerEntry,
      encEntries ps = none ↔ ∃ p ∈ ps, marshalPA p.Attributes = none := by
    intro ps
    induction ps with
    | nil => simp [encEntries]
    | cons e rest ih =>
      simp only [encEntries, marshalEntry]
      cases hpa : marshalPA e.Attributes with
      | none => simp [hpa]
      | some v =>
        cases hr : encEntries rest with
        | none =>
          rw [hr] at ih
          simp only [List.mem_cons]
          constructor
          · intro _
            obtain ⟨p, hp, hn⟩ := ih.mp rfl
            exact ⟨p, Or.inr hp, hn⟩
          · intro _; trivial
        | some er =>
          rw [hr] at ih
          simp only [List.mem_cons]
          constructor
          · intro hcon; exact absurd hcon (by simp)
          · intro ⟨p, hp, hn⟩
            rcases hp with h1 | h2
            · subst h1; rw [hpa] at hn; exact absurd hn (by simp)
            · exact absurd (ih.mpr ⟨p, h2, hn⟩) (by simp)
  unfold marshalLB
  cases he : encEntries s.Included with
  | none => simpa using (key s.Included).mp he
  | some es =>
    simp only []
    constructor
    · intro hcon; exact absurd hcon (by simp)
    · intro hex
      exact absurd ((key s.Included).mpr hex) (by simp [he])

/-- Full effect of a successful `UpdateLeaderboard` at time `t`: it reports
success, the `leaderboard` key holds the encoded snapshot with absolute expiry
`t + 600`, every player of the snapshot has its stats bytes under its
per-player key with the same expiry `t + 600`, and every other key is left
untouched. -/
theorem UpdateLeaderboard_effect (ctx : Ctx) (st : RedisState) (t : Nat)
    (s : LeaderboardResponse) (b : List Nat)
    (henc : marshalLB s = some b) (hctx : ctx.canceled = false)
    (hnd : (s.Included.map (fun p => p.ID)).Nodup)
    (hok : ∀ p ∈ s.Included, hashOk st t (playerKey p.ID) = true) :
    (Store.UpdateLeaderboard ctx st t s).1 = .ok ()
    ∧ liveLookup (Store.UpdateLeaderboard ctx st t s).2 t "leaderboard"
        = some (.str b, some (t + 10 * 60))
    ∧ keyExpiry (Store.UpdateLeaderboard ctx st t s).2 "leaderboard"
        = some (some (t + 10 * 60))
    ∧ (∀ p ∈ s.Included,
        statsBytes (Store.UpdateLeaderboard ctx st t s).2 t p.ID = marshalPA p.Attributes
        ∧ keyExpiry (Store.UpdateLeaderboard ctx st t s).2 (playerKey p.ID)
            = some (some (t + 10 * 60)))
    ∧ (∀ k, k ≠ "leaderboard" → (∀ p ∈ s.Included, k ≠ playerKey p.ID) →
        findEntry (Store.UpdateLeaderboard ctx st t s).2.entries k
          = findEntry st.entries k) := by
  have hee : ∃ es, encEntries s.Included = some es := by
    unfold marshalLB at henc
    cases he : encEntries s.Included with
    | none => rw [he] at henc; exact absurd henc (by simp)
    | some es => exact ⟨es, rfl⟩
  obtain ⟨es, hes⟩ := hee
  obtain ⟨cs, hcs⟩ := buildPlayerCmds_of_encEntries hes
  set st1 := setEntry st "leaderboard" (.str b) (some (t + 10 * 60)) with hst1
  have hok1 : ∀ p ∈ s.Included, hashOk st1 t (playerKey p.ID) = true := by
    intro p hp
    rw [hst1, hashOk_setEntry_ne st t "leaderboard" (playerKey p.ID) _ _
      (playerKey_ne_leaderboard p.ID)]
    exact hok p hp
  obtain ⟨hflag, hplayers, hframe⟩ :=
    runCmds_playerCmds t s.Included hnd st1 cs hcs hok1
  have hrun : runCmds t st (.set "leaderboard" b (10 * 60) :: cs)
      = ((runCmds t st1 cs).1, (runCmds t st1 cs).2) := by
    simp [runCmds, applyCmd, hst1]
  have hupd : Store.UpdateLeaderboard ctx st t s
      = (.ok (), (runCmds t st1 cs).2) := by
    unfold Store.UpdateLeaderboard execTransaction
    rw [henc, hcs]
    simp only [hctx, Bool.false_eq_true, if_false, hrun]
    simp [hflag]
  rw [hupd]
  have hlbfind : findEntry (runCmds t st1 cs).2.entries "leaderboard"
      = some { key := "leaderboard", val := .str b, expiry := some (t + 10 * 60) } := by
    rw [hframe "leaderboard" (fun p hp h => playerKey_ne_leaderboard p.ID h.symm)]
    rw [hst1, findEntry_setEntry]
    simp
  refine ⟨rfl, ?_, ?_, hplayers, ?_⟩
  · rw [liveLookup, hlbfind]
    simp [expiryLive]
  · rw [keyExpiry, hlbfind]; rfl
  · intro k hk1 hk2
    rw [hframe k hk2, hst1, findEntry_setEntry, if_neg hk1]

/-- A snapshot that fails to serialize makes `UpdateLeaderboard` return the
encode error with the backend untouched (the transaction is never executed). -/
theorem UpdateLeaderboard_encodeError (ctx : Ctx) (st : RedisState) (t : Nat)
    (s : LeaderboardResponse) (h : marshalLB s = none) :
    Store.UpdateLeaderboard ctx st t s = (.error .encodeError, st) := by
  simp [Store.UpdateLeaderboard, h]

/-- A canceled context makes `UpdateLeaderboard` of a serializable snapshot
fail with `canceled`, with the backend untouched (the queued transaction is
never committed). -/
theorem UpdateLeaderboard_canceled (st : RedisState) (t : Nat)
    (s : LeaderboardResponse) (b : List Nat) (henc : marshalLB s = some b) :
    Store.UpdateLeaderboard { canceled := true } st t s
      = (.error .canceled, st) := by
  have hee : ∃ es, encEntries s.Included = some es := by
    unfold marshalLB at henc
    cases he : encEntries s.Included with
    | none => rw [he] at henc; exact absurd henc (by simp)
    | some es => exact ⟨es, rfl⟩
  obtain ⟨es, hes⟩ := hee
  obtain ⟨cs, hcs⟩ := buildPlayerCmds_of_encEntries hes
  unfold Store.UpdateLeaderboard
  rw [henc, hcs]
  simp [execTransaction]

/-! ## Read-path lemmas -/

/-- A GET leaves the backend state unchanged. -/
theorem applyCmd_get_snd (t : Nat) (st : RedisState) (k : String) :
    (applyCmd t st (.get k)).2 = st := by
  simp only [applyCmd]
  rcases liveLookup st t k with _ | ⟨v | hh, e⟩ <;> rfl

/-- An HGET leaves the backend state unchanged. -/
theorem applyCmd_hget_snd (t : Nat) (st : RedisState) (k f : String) :
    (applyCmd t st (.hget k f)).2 = st := by
  simp only [applyCmd]
  rcases liveLookup st t k with _ | ⟨v | hh, e⟩
  · rfl
  · rfl
  · dsimp only
    rcases lookupField hh f with _ | v <;> rfl

/-- The state a single sent command leaves behind. -/
theorem sendCmd_snd (ctx : Ctx) (st : RedisState) (t : Nat) (c : RCmd) :
    (sendCmd ctx st t c).2 =
      if ctx.canceled = true then st else (applyCmd t st c).2 := by
  unfold sendCmd
  by_cases h : ctx.canceled = true <;> simp [h]

/-- A sent GET leaves the backend state unchanged. -/
theorem sendCmd_get_state (ctx : Ctx) (st : RedisState) (t : Nat) (k : String) :
    (sendCmd ctx st t (.get k)).2 = st := by
  rw [sendCmd_snd]
  by_cases h : ctx.canceled = true
  · rw [if_pos h]
  · rw [if_neg h]; exact applyCmd_get_snd t st k

/-- A sent HGET leaves the backend state unchanged. -/
theorem sendCmd_hget_state (ctx : Ctx) (st : RedisState) (t : Nat) (k f : String) :
    (sendCmd ctx st t (.hget k f)).2 = st := by
  rw [sendCmd_snd]
  by_cases h : ctx.canceled = true
  · rw [if_pos h]
  · rw [if_neg h]; exact applyCmd_hget_snd t st k f

/-- A sent PING leaves the backend state unchanged. -/
theorem sendCmd_ping_state (ctx : Ctx) (st : RedisState) (t : Nat) :
    (sendCmd ctx st t .ping).2 = st := by
  rw [sendCmd_snd]
  by_cases h : ctx.canceled = true
  · rw [if_pos h]
  · rw [if_neg h]; rfl

/-- `GetLeaderboard` never modifies the backend state. -/
theorem GetLeaderboard_state (ctx : Ctx) (st : RedisState) (t : Nat) :
    (Store.GetLeaderboard ctx st t).2 = st := by
  unfold Store.GetLeaderboard
  rcases hsc : sendCmd ctx st t (.get "leaderboard") with ⟨r, st1⟩
  have h1 : st1 = st := by
    have h2 := sendCmd_get_state ctx st t "leaderboard"
    rw [hsc] at h2; exact h2
  subst h1
  rcases r with e | r
  · rfl
  · rcases r with _ | data | _ | _
    · rfl
    · dsimp only
      rcases decodeLB data with _ | lb <;> rfl
    · rfl
    · rfl

/-- `GetPlayerStats` never modifies the backend state. -/
theorem GetPlayerStats_state (ctx : Ctx) (st : RedisState) (t : Nat) (pid : String) :
    (Store.GetPlayerStats ctx st t pid).2 = st := by
  unfold Store.GetPlayerStats
  rcases hsc : sendCmd ctx st t (.hget (playerKey pid) "stats") with ⟨r, st1⟩
  have h1 : st1 = st := by
    have h2 := sendCmd_hget_state ctx st t (playerKey pid) "stats"
    rw [hsc] at h2; exact h2
  subst h1
  rcases r with e | r
  · rfl
  · rcases r with _ | data | _ | _
    · rfl
    · dsimp only
      rcases decodePA data with _ | a <;> rfl
    · rfl
    · rfl

/-- `GetSeason` never modifies the backend state. -/
theorem GetSeason_state (ctx : Ctx) (st : RedisState) (t : Nat) :
    (Store.GetSeason ctx st t).2 = st := by
  unfold Store.GetSeason
  rcases hsc : sendCmd ctx st t (.get "current_season") with ⟨r, st1⟩
  have h1 : st1 = st := by
    have h2 := sendCmd_get_state ctx st t "current_season"
    rw [hsc] at h2; exact h2
  subst h1
  rcases r with e | r
  · rfl
  · rcases r with _ | data | _ | _
    · rfl
    · dsimp only
      rcases decodeSeason data with _ | sd <;> rfl
    · rfl
    · rfl

/-- A command sent on a context that is not canceled reaches the backend. -/
theorem sendCmd_not_canceled (ctx : Ctx) (st : RedisState) (t : Nat) (c : RCmd)
    (h : ctx.canceled = false) :
    sendCmd ctx st t c = (.ok (applyCmd t st c).1, (applyCmd t st c).2) := by
  unfold sendCmd
  rw [h]
  simp

/-- Observable behavior of `GetLeaderboard` on a context that is not canceled:
the decoded snapshot when the key is live and parses, a cache miss when it is
absent or expired, a decode error when the stored bytes do not parse, a
backend error when the key holds a value of the wrong kind — and the state is
left unchanged. -/
theorem GetLeaderboard_eq (ctx : Ctx) (st : RedisState) (t : Nat)
    (hctx : ctx.canceled = false) :
    Store.GetLeaderboard ctx st t =
      ((match liveLookup st t "leaderboard" with
        | none => .error .cacheMiss
        | some (.str data, _) =>
          (match decodeLB data with
           | none => .error .decodeError
           | some lb => .ok lb)
        | some (.hash _, _) => .error .backendError), st) := by
  unfold Store.GetLeaderboard
  rw [sendCmd_not_canceled ctx st t _ hctx]
  simp only [applyCmd]
  rcases liveLookup st t "leaderboard" with _ | ⟨v | hh, e⟩
  · rfl
  · dsimp only
    rcases decodeLB v with _ | lb <;> rfl
  · rfl

/-- Observable behavior of `GetSeason` on a context that is not canceled
(same shape as `GetLeaderboard`, against key `current_season`). -/
theorem GetSeason_eq (ctx : Ctx) (st : RedisState) (t : Nat)
    (hctx : ctx.canceled = false) :
    Store.GetSeason ctx st t =
      ((match liveLookup st t "current_season" with
        | none => .error .cacheMiss
        | some (.str data, _) =>
          (match decodeSeason data with
           | none => .error .decodeError
           | some sd => .ok sd)
        | some (.hash _, _) => .error .backendError), st) := by
  unfold Store.GetSeason
  rw [sendCmd_not_canceled ctx st t _ hctx]
  simp only [applyCmd]
  rcases liveLookup st t "current_season" with _ | ⟨v | hh, e⟩
  · rfl
  · dsimp only
    rcases decodeSeason v with _ | sd <;> rfl
  · rfl

/-- Observable behavior of `GetPlayerStats` on a context that is not canceled:
the decoded attributes when the stats field is live and parses, a cache miss
when the key (or its stats field) is absent or expired, a decode error when
the stored bytes do not parse, a backend error when the key holds a plain
string — and the state is left unchanged. -/
theorem GetPlayerStats_eq (ctx : Ctx) (st : RedisState) (t : Nat) (pid : String)
    (hctx : ctx.canceled = false) :
    Store.GetPlayerStats ctx st t pid =
      ((match liveLookup st t (playerKey pid) with
        | none => .error .cacheMiss
        | some (.str _, _) => .error .backendError
        | some (.hash h, _) =>
          (match lookupField h "stats" with
           | none => .error .cacheMiss
           | some data =>
             (match decodePA data with
              | none => .error .decodeError
              | some a => .ok a))), st) := by
  unfold Store.GetPlayerStats
  rw [sendCmd_not_canceled ctx st t _ hctx]
  simp only [applyCmd]
  rcases liveLookup st t (playerKey pid) with _ | ⟨v | hh, e⟩
  · rfl
  · rfl
  · dsimp only
    rcases lookupField hh "stats" with _ | data
    · rfl
    · dsimp only
      rcases decodePA data with _ | a <;> rfl

/-- A `statsBytes` hit comes from a live hash entry with that stats field. -/
theorem statsBytes_some {st : RedisState} {t : Nat} {pid : String} {v : List Nat}
    (h : statsBytes st t pid = some v) :
    ∃ hh e, liveLookup st t (playerKey pid) = some (.hash hh, e)
      ∧ lookupField hh "stats" = some v := by
  unfold statsBytes at h
  rcases hl : liveLookup st t (playerKey pid) with _ | ⟨w | hh, e⟩ <;> rw [hl] at h
  · exact absurd h (by simp)
  · exact absurd h (by simp)
  · exact ⟨hh, e, rfl, h⟩

/-- Full effect of `UpdateSeason` on a context that is not canceled: it
reports success and stores the encoded season under `current_season` with
absolute expiry `t + 86400` (a 24-hour time-to-live). -/
theorem UpdateSeason_effect (ctx : Ctx) (st : RedisState) (t : Nat) (sd : SeasonData)
    (hctx : ctx.canceled = false) :
    Store.UpdateSeason ctx st t sd =
      (.ok (), setEntry st "current_season" (.str (encStr sd.ID))
        (some (t + 24 * 60 * 60))) := by
  unfold Store.UpdateSeason marshalSeason
  dsimp only
  rw [sendCmd_not_canceled ctx st t _ hctx]
  simp only [applyCmd]

/-! ## Claim theorems -/

/-- C10: the read operations `GetLeaderboard`, `GetPlayerStats` and
`GetSeason` never modify cache state: for every context, starting backend
state, time and player identifier, each of them leaves every key, stored
value and expiry exactly as it found it, whatever it returns. -/
theorem c10_reads_preserve_state (ctx : Ctx) (st : RedisState) (t : Nat)
    (pid : String) :
    (Store.GetLeaderboard ctx st t).2 = st
    ∧ (Store.GetPlayerStats ctx st t pid).2 = st
    ∧ (Store.GetSeason ctx st t).2 = st :=
  ⟨GetLeaderboard_state ctx st t, GetPlayerStats_state ctx st t pid,
    GetSeason_state ctx st t⟩

/-- C2: for every valid snapshot (one the codec can serialize), every blob
store, container and name, `Restore` applied to the store produced by
`Backup` returns a snapshot equal to the original in every field. -/
theorem c2_backup_restore_roundtrip (bs : BlobStore) (x : LeaderboardResponse)
    (container n : String) (hx : marshalLB x ≠ none) :
    (Backup bs x container n).1 = .ok ()
    ∧ Restore (Backup bs x container n).2 container n = .ok x := by
  cases hb : marshalLB x with
  | none => exact absurd hb hx
  | some b =>
    refine ⟨by simp [Backup, hb], ?_⟩
    simp [Backup, hb, Restore, blobPut, findBlob, decodeLB_marshalLB x b hb]

/-- C2 witness: the round trip at a concrete two-player snapshot. -/
theorem c2_backup_restore_roundtrip_witness :
    (Backup { objects := [] }
        { Included := [{ ID := "p1", Attributes := ⟨3, 50, 5, []⟩ },
                       { ID := "p2", Attributes := ⟨1, 80, 20, []⟩ }] }
        "pubg-leaderboard" "b1").1 = .ok ()
    ∧ Restore (Backup { objects := [] }
        { Included := [{ ID := "p1", Attributes := ⟨3, 50, 5, []⟩ },
                       { ID := "p2", Attributes := ⟨1, 80, 20, []⟩ }] }
        "pubg-leaderboard" "b1").2 "pubg-leaderboard" "b1"
      = .ok { Included := [{ ID := "p1", Attributes := ⟨3, 50, 5, []⟩ },
                          { ID := "p2", Attributes := ⟨1, 80, 20, []⟩ }] } :=
  c2_backup_restore_roundtrip { objects := [] }
    { Included := [{ ID := "p1", Attributes := ⟨3, 50, 5, []⟩ },
                   { ID := "p2", Attributes := ⟨1, 80, 20, []⟩ }] }
    "pubg-leaderboard" "b1" (by decide)

/-- C7: `BackupLeaderboardData` against a cache with no live leaderboard
snapshot fails with the nothing-to-backup error and writes nothing to blob
storage. -/
theorem c7_backup_nothing (ctx : Ctx) (st : RedisState) (bs : BlobStore) (t : Nat)
    (container n : String) (hctx : ctx.canceled = false)
    (hmiss : liveLookup st t "leaderboard" = none) :
    (Service.BackupLeaderboardData ctx st bs t container n).1
        = .error .nothingToBackup
    ∧ (Service.BackupLeaderboardData ctx st bs t container n).2.2 = bs := by
  unfold Service.BackupLeaderboardData
  rw [GetLeaderboard_eq ctx st t hctx, hmiss]
  exact ⟨rfl, rfl⟩

/-- C7 witness: backing up from the empty cache. -/
theorem c7_backup_nothing_witness :
    (Service.BackupLeaderboardData { canceled := false } emptyState { objects := [] }
        0 "pubg-leaderboard" "b1").1 = .error .nothingToBackup
    ∧ (Service.BackupLeaderboardData { canceled := false } emptyState { objects := [] }
        0 "pubg-leaderboard" "b1").2.2 = { objects := [] } :=
  c7_backup_nothing { canceled := false } emptyState { objects := [] } 0
    "pubg-leaderboard" "b1" rfl (by decide)

/-- C6: each read operation returns the decoded record when the stored entry
is present and parses, fails with the cache miss exactly when the entry is
absent or expired, and fails with a decode error when the stored bytes do not
parse (for `GetPlayerStats`, the entry is the `stats` field of the
`player_stats:<playerID>` hash, and a key of the wrong kind is a backend
error, not a miss). -/
theorem c6_read_contract (ctx : Ctx) (st : RedisState) (t : Nat) (pid : String)
    (hctx : ctx.canceled = false) :
    (liveLookup st t "leaderboard" = none →
       (Store.GetLeaderboard ctx st t).1 = .error .cacheMiss)
    ∧ (∀ data e lb, liveLookup st t "leaderboard" = some (.str data, e) →
        decodeLB data = some lb → (Store.GetLeaderboard ctx st t).1 = .ok lb)
    ∧ (∀ data e, liveLookup st t "leaderboard" = some (.str data, e) →
        decodeLB data = none →
        (Store.GetLeaderboard ctx st t).1 = .error .decodeError)
    ∧ ((Store.GetLeaderboard ctx st t).1 = .error .cacheMiss →
        liveLookup st t "leaderboard" = none)
    ∧ (liveLookup st t "current_season" = none →
       (Store.GetSeason ctx st t).1 = .error .cacheMiss)
    ∧ (∀ data e sd, liveLookup st t "current_season" = some (.str data, e) →
        decodeSeason data = some sd → (Store.GetSeason ctx st t).1 = .ok sd)
    ∧ (∀ data e, liveLookup st t "current_season" = some (.str data, e) →
        decodeSeason data = none →
        (Store.GetSeason ctx st t).1 = .error .decodeError)
    ∧ ((Store.GetSeason ctx st t).1 = .error .cacheMiss →
        liveLookup st t "current_season" = none)
    ∧ (statsBytes st t pid = none → hashOk st t (playerKey pid) = true →
        (Store.GetPlayerStats ctx st t pid).1 = .error .cacheMiss)
    ∧ (∀ data a, statsBytes st t pid = some data → decodePA data = some a →
        (Store.GetPlayerStats ctx st t pid).1 = .ok a)
    ∧ (∀ data, statsBytes st t pid = some data → decodePA data = none →
        (Store.GetPlayerStats ctx st t pid).1 = .error .decodeError)
    ∧ ((Store.GetPlayerStats ctx st t pid).1 = .error .cacheMiss →
        statsBytes st t pid = none) := by
  rw [GetLeaderboard_eq ctx st t hctx, GetSeason_eq ctx st t hctx,
    GetPlayerStats_eq ctx st t pid hctx]
  refine ⟨?_, ?_, ?_, ?_, ?_, ?_, ?_, ?_, ?_, ?_, ?_, ?_⟩
  · intro h; rw [h]
  · intro data e lb h hd; rw [h]; simp [hd]
  · intro data e h hd; rw [h]; simp [hd]
  · intro h
    rcases hl : liveLookup st t "leaderboard" with _ | ⟨v | hh, e⟩
    · rfl
    · rw [hl] at h
      dsimp only at h
      rcases hd : decodeLB v with _ | lb <;> rw [hd] at h <;> exact absurd h (by simp)
    · rw [hl] at h; exact absurd h (by simp)
  · intro h; rw [h]
  · intro data e sd h hd; rw [h]; simp [hd]
  · intro data e h hd; rw [h]; simp [hd]
  · intro h
    rcases hl : liveLookup st t "current_season" with _ | ⟨v | hh, e⟩
    · rfl
    · rw [hl] at h
      dsimp only at h
      rcases hd : decodeSeason v with _ | sd <;> rw [hd] at h <;> exact absurd h (by simp)
    · rw [hl] at h; exact absurd h (by simp)
  · intro hnone hok
    unfold statsBytes at hnone
    unfold hashOk at hok
    rcases hl : liveLookup st t (playerKey pid) with _ | ⟨v | hh, e⟩
    · rfl
    · rw [hl] at hok
      exact absurd hok (by simp)
    · rw [hl] at hnone
      dsimp only at hnone ⊢
      rw [hnone]
  · intro data a hsb hd
    obtain ⟨hh, e, hl, hf⟩ := statsBytes_some hsb
    rw [hl]
    dsimp only
    rw [hf]
    simp [hd]
  · intro data hsb hd
    obtain ⟨hh, e, hl, hf⟩ := statsBytes_some hsb
    rw [hl]
    dsimp only
    rw [hf]
    simp [hd]
  · intro h
    unfold statsBytes
    rcases hl : liveLookup st t (playerKey pid) with _ | ⟨v | hh, e⟩
    · rfl
    · rw [hl] at h
    · rw [hl] at h
      dsimp only at h ⊢
      rcases hf : lookupField hh "stats" with _ | data
      · rfl
      · rw [hf] at h
        dsimp only at h
        rcases hd : decodePA data with _ | a <;> rw [hd] at h <;> exact absurd h (by simp)

/-- C6 witness: a concrete state exercising a hit on `leaderboard`, a miss on
`current_season`, and a decode error on a player's stats. -/
theorem c6_read_contract_witness :
    (Store.GetLeaderboard { canceled := false }
        { entries := [{ key := "leaderboard", val := .str [0], expiry := some 600 },
                      { key := "player_stats:px",
                        val := .hash [("stats", [99])], expiry := some 600 }] } 0).1
      = .ok { Included := [] }
    ∧ (Store.GetSeason { canceled := false }
        { entries := [{ key := "leaderboard", val := .str [0], expiry := some 600 },
                      { key := "player_stats:px",
                        val := .hash [("stats", [99])], expiry := some 600 }] } 0).1
      = .error .cacheMiss
    ∧ (Store.GetPlayerStats { canceled := false }
        { entries := [{ key := "leaderboard", val := .str [0], expiry := some 600 },
                      { key := "player_stats:px",
                        val := .hash [("stats", [99])], expiry := some 600 }] } 0 "px").1
      = .error .decodeError := by
  refine ⟨?_, ?_, ?_⟩
  · exact (c6_read_contract { canceled := false } _ 0 "px" rfl).2.1 [0] (some 600)
      { Included := [] } (by decide) (by decide)
  · exact (c6_read_contract { canceled := false } _ 0 "px" rfl).2.2.2.2.1 (by decide)
  · exact (c6_read_contract { canceled := false } _ 0 "px" rfl).2.2.2.2.2.2.2.2.2.2.1
      [99] (by decide) (by decide)

/-- A marshalled snapshot has marshalled entries. -/
theorem marshalLB_encEntries {s : LeaderboardResponse} {b : List Nat}
    (h : marshalLB s = some b) : ∃ es, encEntries s.Included = some es := by
  unfold marshalLB at h
  cases he : encEntries s.Included with
  | none => rw [he] at h; exact absurd h (by simp)
  | some es => exact ⟨es, rfl⟩

/-- C1: `UpdateLeaderboard` writes the `leaderboard` key and every player's
`player_stats:<playerID>` entry in one backend transaction, all with the same
10-minute expiry (`t + 600`); if serialization of any record fails it returns
the encode error before the transaction is executed and the previously-cached
state is left completely unchanged (no key written for any player of the new
snapshot). -/
theorem c1_update_transaction (ctx : Ctx) (st : RedisState) (t : Nat)
    (s : LeaderboardResponse) :
    ((∃ p ∈ s.Included, marshalPA p.Attributes = none) →
       Store.UpdateLeaderboard ctx st t s = (.error .encodeError, st))
    ∧ (∀ b, marshalLB s = some b → ctx.canceled = false →
        (s.Included.map (fun p => p.ID)).Nodup →
        (∀ p ∈ s.Included, hashOk st t (playerKey p.ID) = true) →
        (Store.UpdateLeaderboard ctx st t s).1 = .ok ()
        ∧ liveLookup (Store.UpdateLeaderboard ctx st t s).2 t "leaderboard"
            = some (.str b, some (t + 10 * 60))
        ∧ keyExpiry (Store.UpdateLeaderboard ctx st t s).2 "leaderboard"
            = some (some (t + 10 * 60))
        ∧ (∀ p ∈ s.Included,
            statsBytes (Store.UpdateLeaderboard ctx st t s).2 t p.ID
              = marshalPA p.Attributes
            ∧ keyExpiry (Store.UpdateLeaderboard ctx st t s).2 (playerKey p.ID)
                = some (some (t + 10 * 60)))) := by
  constructor
  · intro hex
    exact UpdateLeaderboard_encodeError ctx st t s ((marshalLB_none_iff s).mpr hex)
  · intro b hb hctx hnd hok
    obtain ⟨h1, h2, h3, h4, h5⟩ := UpdateLeaderboard_effect ctx st t s b hb hctx hnd hok
    exact ⟨h1, h2, h3, h4⟩

/-- C1 witness: an unserializable record aborts with the cache untouched; a
serializable snapshot commits with the snapshot key and the player key
carrying the same expiry. -/
theorem c1_update_transaction_witness :
    Store.UpdateLeaderboard { canceled := false } emptyState 0
        { Included := [{ ID := "p1", Attributes := ⟨1, 2, 3, [("x", .junsupported)]⟩ }] }
      = (.error .encodeError, emptyState)
    ∧ (Store.UpdateLeaderboard { canceled := false } emptyState 0
        { Included := [{ ID := "p1", Attributes := ⟨3, 50, 5, []⟩ }] }).1 = .ok ()
    ∧ keyExpiry (Store.UpdateLeaderboard { canceled := false } emptyState 0
        { Included := [{ ID := "p1", Attributes := ⟨3, 50, 5, []⟩ }] }).2 "leaderboard"
      = some (some (0 + 10 * 60))
    ∧ keyExpiry (Store.UpdateLeaderboard { canceled := false } emptyState 0
        { Included := [{ ID := "p1", Attributes := ⟨3, 50, 5, []⟩ }] }).2
        (playerKey "p1")
      = some (some (0 + 10 * 60)) := by
  refine ⟨?_, ?_, ?_, ?_⟩
  · exact (c1_update_transaction { canceled := false } emptyState 0 _).1
      ⟨{ ID := "p1", Attributes := ⟨1, 2, 3, [("x", .junsupported)]⟩ }, by decide, by decide⟩
  · exact ((c1_update_transaction { canceled := false } emptyState 0 _).2
      [1, 2, 112, 49, 3, 50, 5, 0] (by decide) rfl (by decide) (fun p hp => rfl)).1
  · exact ((c1_update_transaction { canceled := false } emptyState 0 _).2
      [1, 2, 112, 49, 3, 50, 5, 0] (by decide) rfl (by decide) (fun p hp => rfl)).2.2.1
  · exact (((c1_update_transaction { canceled := false } emptyState 0 _).2
      [1, 2, 112, 49, 3, 50, 5, 0] (by decide) rfl (by decide) (fun p hp => rfl)).2.2.2
      { ID := "p1", Attributes := ⟨3, 50, 5, []⟩ } (by decide)).2

/-- C5: the fixed key-naming and time-to-live scheme: the whole snapshot is
stored under key `leaderboard` with a 10-minute expiry, each player's
attributes under hash key `player_stats:<playerID>` (field `stats`) with a
10-minute expiry, and season data under key `current_season` with a 24-hour
expiry. -/
theorem c5_key_ttl_scheme (ctx : Ctx) (st : RedisState) (t : Nat)
    (s : LeaderboardResponse) (b : List Nat) (sd : SeasonData)
    (hb : marshalLB s = some b) (hctx : ctx.canceled = false)
    (hnd : (s.Included.map (fun p => p.ID)).Nodup)
    (hok : ∀ p ∈ s.Included, hashOk st t (playerKey p.ID) = true) :
    liveLookup (Store.UpdateLeaderboard ctx st t s).2 t "leaderboard"
        = some (.str b, some (t + 10 * 60))
    ∧ (∀ p ∈ s.Included,
        statsBytes (Store.UpdateLeaderboard ctx st t s).2 t p.ID
          = marshalPA p.Attributes
        ∧ keyExpiry (Store.UpdateLeaderboard ctx st t s).2 (playerKey p.ID)
            = some (some (t + 10 * 60)))
    ∧ Store.UpdateSeason ctx st t sd
        = (.ok (), setEntry st "current_season" (.str (encStr sd.ID))
            (some (t + 24 * 60 * 60))) := by
  obtain ⟨h1, h2, h3, h4, h5⟩ := UpdateLeaderboard_effect ctx st t s b hb hctx hnd hok
  exact ⟨h2, h4, UpdateSeason_effect ctx st t sd hctx⟩

/-- C5 witness: the scheme at a concrete snapshot and season. -/
theorem c5_key_ttl_scheme_witness :
    liveLookup (Store.UpdateLeaderboard { canceled := false } emptyState 0
        { Included := [{ ID := "p1", Attributes := ⟨3, 50, 5, []⟩ }] }).2 0 "leaderboard"
      = some (.str [1, 2, 112, 49, 3, 50, 5, 0], some (0 + 10 * 60))
    ∧ Store.UpdateSeason { canceled := false } emptyState 0 { ID := "s9" }
      = (.ok (), setEntry emptyState "current_season" (.str (encStr "s9"))
          (some (0 + 24 * 60 * 60))) := by
  constructor
  · exact (c5_key_ttl_scheme { canceled := false } emptyState 0 _
      [1, 2, 112, 49, 3, 50, 5, 0] { ID := "s9" } (by decide) rfl (by decide)
      (fun p hp => rfl)).1
  · exact (c5_key_ttl_scheme { canceled := false } emptyState 0
      { Included := [{ ID := "p1", Attributes := ⟨3, 50, 5, []⟩ }] }
      [1, 2, 112, 49, 3, 50, 5, 0] { ID := "s9" } (by decide) rfl (by decide)
      (fun p hp => rfl)).2.2

/-- C4: after a successful `UpdateLeaderboard` of a snapshot on a previously
empty cache, `GetPlayerStats` returns exactly the attributes embedded in the
snapshot for every included player, and the cache-miss error for every player
identifier not included. -/
theorem c4_update_then_get (ctx : Ctx) (t : Nat) (s : LeaderboardResponse)
    (pid : String) (hctx : ctx.canceled = false) (hb : marshalLB s ≠ none)
    (hnd : (s.Included.map (fun p => p.ID)).Nodup) :
    (Store.UpdateLeaderboard ctx emptyState t s).1 = .ok ()
    ∧ (∀ p ∈ s.Included,
        (Store.GetPlayerStats ctx (Store.UpdateLeaderboard ctx emptyState t s).2
          t p.ID).1 = .ok p.Attributes)
    ∧ (pid ∉ s.Included.map (fun p => p.ID) →
        (Store.GetPlayerStats ctx (Store.UpdateLeaderboard ctx emptyState t s).2
          t pid).1 = .error .cacheMiss) := by
  cases hbb : marshalLB s with
  | none => exact absurd hbb hb
  | some b =>
    have hok : ∀ p ∈ s.Included, hashOk emptyState t (playerKey p.ID) = true := by
      intro p hp; rfl
    obtain ⟨h1, h2, h3, h4, h5⟩ :=
      UpdateLeaderboard_effect ctx emptyState t s b hbb hctx hnd hok
    obtain ⟨es, hes⟩ := marshalLB_encEntries hbb
    refine ⟨h1, ?_, ?_⟩
    · intro p hp
      obtain ⟨hsb, hexp⟩ := h4 p hp
      obtain ⟨v, hv⟩ := encEntries_marshalPA hes p hp
      rw [hv] at hsb
      obtain ⟨hh, e, hl, hf⟩ := statsBytes_some hsb
      rw [GetPlayerStats_eq ctx _ t p.ID hctx]
      dsimp only
      rw [hl]
      dsimp only
      rw [hf]
      dsimp only
      rw [decodePA_marshalPA p.Attributes v hv]
    · intro hpid
      have hne : ∀ p ∈ s.Included, playerKey pid ≠ playerKey p.ID := by
        intro p hp hcontra
        exact hpid (by rw [playerKey_inj hcontra]
                       exact List.mem_map_of_mem (fun q => q.ID) hp)
      have hfind : findEntry (Store.UpdateLeaderboard ctx emptyState t s).2.entries
          (playerKey pid) = none := by
        rw [h5 (playerKey pid) (playerKey_ne_leaderboard pid) hne]
        rfl
      have hl : liveLookup (Store.UpdateLeaderboard ctx emptyState t s).2 t
          (playerKey pid) = none := by
        unfold liveLookup
        rw [hfind]
      rw [GetPlayerStats_eq ctx _ t pid hctx]
      dsimp only
      rw [hl]

/-- C4 witness: the spec's two-player scenario; `GetPlayerStats "p2"` returns
rank 1, 80 games, 20 wins, and `GetPlayerStats "p3"` misses. -/
theorem c4_update_then_get_witness :
    (Store.GetPlayerStats { canceled := false }
        (Store.UpdateLeaderboard { canceled := false } emptyState 0
          { Included := [{ ID := "p1", Attributes := ⟨3, 50, 5, []⟩ },
                         { ID := "p2", Attributes := ⟨1, 80, 20, []⟩ }] }).2 0 "p2").1
      = .ok ⟨1, 80, 20, []⟩
    ∧ (Store.GetPlayerStats { canceled := false }
        (Store.UpdateLeaderboard { canceled := false } emptyState 0
          { Included := [{ ID := "p1", Attributes := ⟨3, 50, 5, []⟩ },
                         { ID := "p2", Attributes := ⟨1, 80, 20, []⟩ }] }).2 0 "p3").1
      = .error .cacheMiss := by
  constructor
  · exact (c4_update_then_get { canceled := false } 0
      { Included := [{ ID := "p1", Attributes := ⟨3, 50, 5, []⟩ },
                     { ID := "p2", Attributes := ⟨1, 80, 20, []⟩ }] } "p3" rfl
      (by decide) (by decide)).2.1
      { ID := "p2", Attributes := ⟨1, 80, 20, []⟩ } (by decide)
  · exact (c4_update_then_get { canceled := false } 0
      { Included := [{ ID := "p1", Attributes := ⟨3, 50, 5, []⟩ },
                     { ID := "p2", Attributes := ⟨1, 80, 20, []⟩ }] } "p3" rfl
      (by decide) (by decide)).2.2 (by decide)

/-- C3 counterexample: update with a snapshot containing only `p1`, then with
one containing only `p2`, both at time 0. The cached snapshot now contains no
player `p1`, yet a live `player_stats:p1` entry remains (no expiry or clock
skew involved): the presence-coherence invariant fails. -/
theorem c3_presence_counterexample :
    (Store.GetLeaderboard { canceled := false }
        (Store.UpdateLeaderboard { canceled := false }
          (Store.UpdateLeaderboard { canceled := false } emptyState 0
            { Included := [{ ID := "p1", Attributes := ⟨3, 50, 5, []⟩ }] }).2 0
          { Included := [{ ID := "p2", Attributes := ⟨1, 80, 20, []⟩ }] }).2 0).1
      = .ok { Included := [{ ID := "p2", Attributes := ⟨1, 80, 20, []⟩ }] }
    ∧ (∀ p ∈ ({ Included := [{ ID := "p2", Attributes := ⟨1, 80, 20, []⟩ }] }
        : LeaderboardResponse).Included, p.ID ≠ "p1")
    ∧ statsBytes (Store.UpdateLeaderboard { canceled := false }
          (Store.UpdateLeaderboard { canceled := false } emptyState 0
            { Included := [{ ID := "p1", Attributes := ⟨3, 50, 5, []⟩ }] }).2 0
          { Included := [{ ID := "p2", Attributes := ⟨1, 80, 20, []⟩ }] }).2 0 "p1"
      ≠ none := by
  refine ⟨rfl, by decide, by decide⟩

/-- C3 amended: presence coherence holds in the forward direction only — after
a successful `UpdateLeaderboard(s)` at time `t`, the snapshot key and the
per-player key of every player of `s` are present with the same expiry
instant `t + 600`; but per-player entries of players absent from the newly
cached snapshot are not removed and may remain live until their own earlier
expiry, so the "exists iff" direction fails. -/
theorem c3_forward_coherence (ctx : Ctx) (st : RedisState) (t : Nat)
    (s : LeaderboardResponse) (b : List Nat) (hb : marshalLB s = some b)
    (hctx : ctx.canceled = false)
    (hnd : (s.Included.map (fun p => p.ID)).Nodup)
    (hok : ∀ p ∈ s.Included, hashOk st t (playerKey p.ID) = true) :
    keyExpiry (Store.UpdateLeaderboard ctx st t s).2 "leaderboard"
        = some (some (t + 10 * 60))
    ∧ (∀ p ∈ s.Included,
        statsBytes (Store.UpdateLeaderboard ctx st t s).2 t p.ID ≠ none
        ∧ keyExpiry (Store.UpdateLeaderboard ctx st t s).2 (playerKey p.ID)
            = some (some (t + 10 * 60))) := by
  obtain ⟨h1, h2, h3, h4, h5⟩ := UpdateLeaderboard_effect ctx st t s b hb hctx hnd hok
  obtain ⟨es, hes⟩ := marshalLB_encEntries hb
  refine ⟨h3, ?_⟩
  intro p hp
  obtain ⟨hsb, hexp⟩ := h4 p hp
  obtain ⟨v, hv⟩ := encEntries_marshalPA hes p hp
  rw [hv] at hsb
  exact ⟨by rw [hsb]; simp, hexp⟩

/-- C3 amended witness: forward coherence at a concrete one-player snapshot. -/
theorem c3_forward_coherence_witness :
    keyExpiry (Store.UpdateLeaderboard { canceled := false } emptyState 0
        { Included := [{ ID := "p1", Attributes := ⟨3, 50, 5, []⟩ }] }).2 "leaderboard"
      = some (some (0 + 10 * 60))
    ∧ statsBytes (Store.UpdateLeaderboard { canceled := false } emptyState 0
        { Included := [{ ID := "p1", Attributes := ⟨3, 50, 5, []⟩ }] }).2 0 "p1"
      ≠ none := by
  constructor
  · exact (c3_forward_coherence { canceled := false } emptyState 0 _
      [1, 2, 112, 49, 3, 50, 5, 0] (by decide) rfl (by decide) (fun p hp => rfl)).1
  · exact ((c3_forward_coherence { canceled := false } emptyState 0
      { Included := [{ ID := "p1", Attributes := ⟨3, 50, 5, []⟩ }] }
      [1, 2, 112, 49, 3, 50, 5, 0] (by decide) rfl (by decide) (fun p hp => rfl)).2
      { ID := "p1", Attributes := ⟨3, 50, 5, []⟩ } (by decide)).1

/-- C8 counterexample: a request for the current season arriving with an
already-fired cancellation signal still completes with HTTP 200 — it neither
fails with the canceled error nor propagates the signal, because the handler
passes a fresh background context to the service. -/
theorem c8_cancellation_counterexample :
    (Api.handle .currentSeason { canceled := true }
        { redis := { entries := [⟨"current_season", .str (encStr "s1"), some 600⟩] },
          blobs := { objects := [] },
          up := { season := .error (), leaderboard := .error () },
          time := 0 }).1 = 200 := rfl

/-- C8 amended: every cache-store operation takes the caller's context and,
when that context is canceled, fails cleanly with the canceled error leaving
the backend untouched (in particular the `UpdateLeaderboard` transaction is
never committed); the backup handler propagates the request's context (a
canceled backup request yields HTTP 500 and writes nothing to blob storage);
but the current-season, current-leaderboard and player-stats handlers pass a
fresh background context, so their responses are independent of the caller's
cancellation signal. -/
theorem c8_cancellation_amended (st : RedisState) (t : Nat)
    (s : LeaderboardResponse) (b : List Nat) (sd : SeasonData)
    (reqCtx : Ctx) (env : Env) (pid : String) :
    (marshalLB s = some b →
       Store.UpdateLeaderboard { canceled := true } st t s = (.error .canceled, st))
    ∧ Store.GetLeaderboard { canceled := true } st t = (.error .canceled, st)
    ∧ Store.GetPlayerStats { canceled := true } st t pid = (.error .canceled, st)
    ∧ Store.GetSeason { canceled := true } st t = (.error .canceled, st)
    ∧ Store.UpdateSeason { canceled := true } st t sd = (.error .canceled, st)
    ∧ Api.handle .currentSeason reqCtx env
        = Api.handle .currentSeason backgroundCtx env
    ∧ Api.handle .currentLeaderboard reqCtx env
        = Api.handle .currentLeaderboard backgroundCtx env
    ∧ Api.handle (.playerStats pid) reqCtx env
        = Api.handle (.playerStats pid) backgroundCtx env
    ∧ ((Api.handle .backupLeaderboard { canceled := true } env).1 = 500
       ∧ (Api.handle .backupLeaderboard { canceled := true } env).2.blobs
           = env.blobs) := by
  refine ⟨?_, rfl, rfl, rfl, rfl, rfl, rfl, rfl, ?_, ?_⟩
  · intro hb
    exact UpdateLeaderboard_canceled st t s b hb
  · rfl
  · rfl

/-- C8 amended witness: a canceled `UpdateLeaderboard` of a concrete snapshot
aborts cleanly with the cache untouched. -/
theorem c8_cancellation_amended_witness :
    Store.UpdateLeaderboard { canceled := true } emptyState 0 { Included := [] }
      = (.error .canceled, emptyState) :=
  (c8_cancellation_amended emptyState 0 { Included := [] } [0] { ID := "s1" }
    { canceled := true }
    { redis := emptyState, blobs := { objects := [] },
      up := { season := .error (), leaderboard := .error () }, time := 0 }
    "p1").1 rfl

/-- C9 counterexample: the restore endpoint called without a `file` query
parameter answers HTTP 400, an error status that is neither 404 nor 500. -/
theorem c9_status_counterexample :
    (Api.handle (.restoreLeaderboard "") { canceled := false }
        { redis := emptyState, blobs := { objects := [] },
          up := { season := .error (), leaderboard := .error () }, time := 0 }).1
      = 400
    ∧ ((400 : Nat) ≠ 200 ∧ (400 : Nat) ≠ 404 ∧ (400 : Nat) ≠ 500) :=
  ⟨rfl, by decide⟩

/-- C9 amended: every response status at the HTTP boundary is 200, 404 or
500, except that the restore endpoint answers 400 when its `file` query
parameter is empty; and 404 arises only from the player-stats endpoint (where
the failure is the cache-miss sentinel). -/
theorem c9_status_amended (call : Api.ApiCall) (reqCtx : Ctx) (env : Env) :
    ((Api.handle call reqCtx env).1 = 200 ∨ (Api.handle call reqCtx env).1 = 404
      ∨ (Api.handle call reqCtx env).1 = 500
      ∨ (call = .restoreLeaderboard "" ∧ (Api.handle call reqCtx env).1 = 400))
    ∧ ((Api.handle call reqCtx env).1 = 404 → ∃ pid, call = .playerStats pid) := by
  cases call with
  | ping =>
    unfold Api.handle Api.handlePing
    dsimp only
    exact ⟨Or.inl rfl, fun h => by simp at h⟩
  | redisPing =>
    unfold Api.handle Api.handleRedisPing
    dsimp only
    rcases hp : Store.Ping reqCtx env.redis env.time with ⟨r, st1⟩
    rcases r with e | u
    · exact ⟨Or.inr (Or.inr (Or.inl rfl)), fun h => by simp at h⟩
    · exact ⟨Or.inl rfl, fun h => by simp at h⟩
  | currentSeason =>
    unfold Api.handle Api.handleGetCurrentSeason
    dsimp only
    rcases hp : Service.GetCurrentSeason backgroundCtx env.redis env.time env.up
      with ⟨r, st1⟩
    rcases r with e | v
    · exact ⟨Or.inr (Or.inr (Or.inl rfl)), fun h => by simp at h⟩
    · exact ⟨Or.inl rfl, fun h => by simp at h⟩
  | currentLeaderboard =>
    unfold Api.handle Api.handleGetCurrentLeaderboard
    dsimp only
    rcases hp : Service.GetCurrentLeaderboard backgroundCtx env.redis env.time env.up
      with ⟨r, st1⟩
    rcases r with e | v
    · exact ⟨Or.inr (Or.inr (Or.inl rfl)), fun h => by simp at h⟩
    · exact ⟨Or.inl rfl, fun h => by simp at h⟩
  | playerStats pid =>
    unfold Api.handle Api.handleGetPlayerStats
    dsimp only
    rcases hp : Service.GetPlayerStats backgroundCtx env.redis env.time env.up pid
      with ⟨r, st1⟩
    rcases r with e | a
    · rcases e with se | _ | _ | _ | _ | _ | _
      all_goals try exact ⟨Or.inr (Or.inr (Or.inl rfl)), fun h => by simp at h⟩
      rcases se with _ | _ | _ | _ | _
      all_goals try exact ⟨Or.inr (Or.inr (Or.inl rfl)), fun h => by simp at h⟩
      exact ⟨Or.inr (Or.inl rfl), fun h => ⟨pid, rfl⟩⟩
    · exact ⟨Or.inl rfl, fun h => by simp at h⟩
  | backupLeaderboard =>
    unfold Api.handle Api.handleBackupLeaderboard
    dsimp only
    rcases hp : Service.BackupLeaderboardData reqCtx env.redis env.blobs env.time
        "pubg-leaderboard" ("leaderboard_backup_" ++ toString env.time)
      with ⟨r, st1, bs1⟩
    rcases r with e | u
    · exact ⟨Or.inr (Or.inr (Or.inl rfl)), fun h => by simp at h⟩
    · exact ⟨Or.inl rfl, fun h => by simp at h⟩
  | restoreLeaderboard file =>
    unfold Api.handle Api.handleRestoreLeaderboard
    dsimp only
    by_cases hf : file = ""
    · subst hf
      exact ⟨Or.inr (Or.inr (Or.inr ⟨rfl, rfl⟩)), fun h => by simp at h⟩
    · rw [if_neg hf]
      rcases hr : Service.RestoreLeaderboardData reqCtx env.redis env.blobs env.time
          "pubg-leaderboard" file with ⟨r, st1⟩
      rcases r with e | u
      · exact ⟨Or.inr (Or.inr (Or.inl rfl)), fun h => by simp at h⟩
      · exact ⟨Or.inl rfl, fun h => by simp at h⟩

/-- C9 amended witness: a player-stats request that answers 404 (empty cache,
upstream leaderboard without the player) is indeed a player-stats call. -/
theorem c9_status_amended_witness :
    ∃ pid, Api.ApiCall.playerStats "p1" = Api.ApiCall.playerStats pid :=
  (c9_status_amended (.playerStats "p1") { canceled := false }
    { redis := emptyState, blobs := { objects := [] },
      up := { season := .error (), leaderboard := .ok { Included := [] } },
      time := 0 }).2 rfl

end PubgLeaderboard
